import Mathlib

/-!
Verification of MarketMiner's acquisition/reconciliation engine.

Shallow embedding of the Python sources:
  * `src/market_miner/scraper.py`        — `MarketMinerScraper.get_item_data`
  * `src/market_miner/ui/main_window.py` — `MarketMinerGUI._compute_comparison`,
    `scrape_worker` (validation pass, skip handling, result-store merge) and
    the nested `save_skip`.

Documents are modelled at the level of the queries the code performs on the
parsed HTML (BeautifulSoup): each `Doc` field is the result of one of the
soup lookups that `get_item_data` runs.  Machine floats in the source only
carry sales-per-day figures parsed from short decimal strings; they are
modelled as rationals.
-/

namespace MarketMiner

/-! ## String helpers mirroring the Python primitives used by the code -/

/-- Python `str.strip()` on the char list: drop leading and trailing
whitespace. -/
def stripChars (l : List Char) : List Char :=
  ((l.dropWhile Char.isWhitespace).reverse.dropWhile Char.isWhitespace).reverse

/-- Python `str.strip()`. -/
def pyStrip (s : String) : String :=
  String.mk (stripChars s.toList)

/-- Python `str.lower()` (ASCII, which covers the scraped flag text). -/
def pyLower (s : String) : String :=
  String.mk (s.toList.map Char.toLower)

/-- Split a char list at every char satisfying `p`, keeping empty pieces —
the semantics of Python `str.split(sep)` for a one-char separator. -/
def splitOnPred (p : Char → Bool) : List Char → List (List Char)
  | [] => [[]]
  | c :: rest =>
    let r := splitOnPred p rest
    if p c then [] :: r
    else
      match r with
      | [] => [[c]]
      | h :: t => (c :: h) :: t

/-- Python `str.replace(',', '')`: drop every comma. -/
def removeCommas (s : String) : String :=
  String.mk (s.toList.filter (fun c => c ≠ ','))

/-- Digit run to its numeric value. -/
def natOfDigits (l : List Char) : Nat :=
  l.foldl (fun n c => n * 10 + (c.toNat - 48)) 0

/-- Python `str.isdigit()` restricted to ASCII digits (the only digits the
site's price cells carry): nonempty and all digits. -/
def pyIsDigit (s : String) : Bool :=
  !s.toList.isEmpty && s.toList.all Char.isDigit

/-- Python `int(s)` guarded by `s.isdigit()`: `some` exactly on nonempty
all-digit strings (the uses in the code are all behind that guard). -/
def pyToNat (s : String) : Option Nat :=
  if pyIsDigit s then some (natOfDigits s.toList) else none

/-- Does `l` start with `p`? (helper for the substring test). -/
def leadsWith : List Char → List Char → Bool
  | [], _ => true
  | _ :: _, [] => false
  | a :: as, b :: bs => a = b && leadsWith as bs

/-- Substring search over char lists (helper for `strContains`). -/
def subSearch (needle hay : List Char) : Bool :=
  leadsWith needle hay ||
    match hay with
    | [] => false
    | _ :: rest => subSearch needle rest

/-- Python `needle in hay` on strings: substring containment. -/
def strContains (hay needle : String) : Bool :=
  subSearch needle.toList hay.toList

/-- Python `str.split()` with no argument: split on whitespace runs,
dropping empty tokens. -/
def pySplitWs (s : String) : List String :=
  (((splitOnPred Char.isWhitespace s.toList).filter (fun t => !t.isEmpty)).map String.mk)

/-- Longest leading run of ASCII digits of a char list, and the rest. -/
def digitRun : List Char → List Char × List Char
  | [] => ([], [])
  | c :: rest =>
    if c.isDigit then
      let (ds, r) := digitRun rest
      (c :: ds, r)
    else ([], c :: rest)

/-- Python `float(...)` on the plain decimal strings the site produces:
optional sign, digits, optional fraction; surrounding whitespace stripped
(exotic float syntax — exponents, inf, nan — does not occur in the scraped
tokens and is out of scope).  `none` models `ValueError`. -/
def parseFloatQ (s : String) : Option ℚ :=
  let cs := stripChars s.toList
  let (sgn, cs) : ℤ × List Char :=
    match cs with
    | '-' :: rest => (-1, rest)
    | '+' :: rest => (1, rest)
    | _ => (1, cs)
  let (intPart, cs) := digitRun cs
  match cs with
  | [] =>
    if intPart.isEmpty then none
    else some (mkRat (sgn * (natOfDigits intPart : ℤ)) 1)
  | '.' :: rest =>
    let (fracPart, rest) := digitRun rest
    if rest ≠ [] then none
    else if intPart.isEmpty ∧ fracPart.isEmpty then none
    else
      some (mkRat
        (sgn * ((natOfDigits intPart : ℤ) * 10 ^ fracPart.length + (natOfDigits fracPart : ℤ)))
        (10 ^ fracPart.length))
  | _ => none

/-- Round-half-to-even to an integer (CPython `round` semantics on exactly
representable values), computed on the reduced numerator/denominator. -/
def halfEvenRound (q : ℚ) : ℤ :=
  let n := q.num
  let d : ℤ := (q.den : ℤ)
  let f := Int.fdiv n d
  let r := n - f * d
  if 2 * r < d then f
  else if d < 2 * r then f + 1
  else if f % 2 = 0 then f else f + 1

/-- Python `round(x, 2)`: half-even rounding at two decimal places. -/
def pyRound2 (q : ℚ) : ℚ :=
  mkRat (halfEvenRound (mkRat (q.num * 100) q.den)) 100

/-! ## Python-dict model: insertion-ordered association list.
Updating an existing key replaces its value in place; a new key is
appended.  This matches CPython dict semantics for the code's uses. -/

/-- Python `d[k] = v`. -/
def dictInsert {K V : Type} [DecidableEq K] : List (K × V) → K → V → List (K × V)
  | [], k, v => [(k, v)]
  | (k', v') :: rest, k, v =>
    if k' = k then (k, v) :: rest else (k', v') :: dictInsert rest k v

/-- Python `d.get(k)`: first binding of the key. -/
def dictGet {K V : Type} [DecidableEq K] : List (K × V) → K → Option V
  | [], _ => none
  | (k', v') :: rest, k => if k' = k then some v' else dictGet rest k

/-! ## Document model (`scraper.py`)

`MarketMinerScraper.get_item_data` navigates the parsed page through a fixed
set of BeautifulSoup queries.  A `Doc` records the outcome of each query:

  * `nameSpan`            — `soup.find('span', class_='item-name')` text;
  * `breadcrumbTexts`     — texts of `soup.find_all('a', href contains '/browse/')`;
  * `itemStats`           — `soup.find('span', class_='item-stats')` text;
  * `stackLinkHref`       — `soup.find('a', href contains '?stack=1')` href;
  * `spdGrandparentText`  — the `sales-per-day` span's grandparent text when
    the `spd_element and parent and parent.parent` chain holds;
  * `medianNodes` / `lastNodes` — for each text node equal (stripped) to
    `"Median"` / `"Last"`, its surrounding-row data (`PriceNode`);
  * `salesTables`         — td texts of each `table.tbl-sales`. -/

/-- One `"Median"`/`"Last"` text node's context: whether `cell.parent` is
truthy, and `cell.find_parent('tr')` as the row's `td` list when present,
each td reduced to its first `span` descendant's text (`none` = no span). -/
structure PriceNode where
  parentExists : Bool
  trCells : Option (List (Option String))

structure Doc where
  nameSpan : Option String := none
  breadcrumbTexts : List String := []
  itemStats : Option String := none
  stackLinkHref : Option String := none
  spdGrandparentText : Option String := none
  medianNodes : List PriceNode := []
  lastNodes : List PriceNode := []
  salesTables : List (List String) := []

/-- The `item_data` dict built by `get_item_data` (`scraper.py` lines 35–45).
`is_stack_price` is `none` while the key is unset. -/
structure ItemData where
  itemid : Nat
  name : String
  price : Nat
  stack_price : Nat
  sold_per_day : ℚ
  stack_sold_per_day : ℚ
  category : String
  rarity : String
  stackable : String
  is_stack_price : Option Bool
deriving DecidableEq

/-! ## Extraction helpers (`scraper.py`) -/

/-- `name_element.text.strip().replace(' ', ' ').strip()`. -/
def cleanNameText (raw : String) : String :=
  pyStrip (String.mk ((pyStrip raw).toList.map (fun c => if c = ' ' then ' ' else c)))

/-- `re.search(r'x(\d+)', s)`: the first `x` followed by at least one digit;
returns the captured maximal digit run. -/
def findXNum : List Char → Option String
  | [] => none
  | c :: rest =>
    if c = 'x' then
      match digitRun rest with
      | ([], _) => findXNum rest
      | (ds, _) => some (String.mk ds)
    else findXNum rest

/-- Leading whitespace run of a char list, and the rest. -/
def spanWs : List Char → List Char × List Char
  | [] => ([], [])
  | c :: rest =>
    if c.isWhitespace then
      let (ws, r) := spanWs rest
      (c :: ws, r)
    else ([], c :: rest)

/-- Try to match `\s*x\d+\s*` at the head of the list; on success return the
tail after the match.  (No backtracking is needed: `x` is not whitespace.) -/
def xMatchTail (l : List Char) : Option (List Char) :=
  match (spanWs l).2 with
  | 'x' :: l2 =>
    match digitRun l2 with
    | ([], _) => none
    | (_, l3) => some (spanWs l3).2
  | _ => none

/-- One fuel unit per scanned position; a match always consumes at least two
characters, so `fuel = l.length` never runs out. -/
def subXNumAux : Nat → List Char → List Char
  | _, [] => []
  | 0, l => l
  | fuel + 1, c :: rest =>
    match xMatchTail (c :: rest) with
    | some l4 => subXNumAux fuel l4
    | none => c :: subXNumAux fuel rest

/-- `re.sub(r'\s*x\d+\s*', '', s)`: delete every match, scanning left to
right. -/
def subXNum (l : List Char) : List Char :=
  subXNumAux l.length l

/-- Flag scan over `item_stats.text.lower()` (`scraper.py` lines 78–93).
Python's `'exclusive' in t or 'ex' in t` collapses to the `'ex'` test but is
kept as written. -/
def rarityFlags (stats : Option String) : List String :=
  match stats with
  | none => []
  | some txt =>
    let t := pyLower txt
    (if strContains t "rare" then ["Rare"] else []) ++
    (if strContains t "exclusive" || strContains t "ex" then ["Exclusive"] else []) ++
    (if strContains t "no auction" then ["No Auction"] else []) ++
    (if strContains t "no sale" then ["No Sale"] else []) ++
    (if strContains t "cursed" then ["Cursed"] else []) ++
    (if strContains t "temporary" then ["Temporary"] else [])

/-- Price of one `"Median"`/`"Last"` node (`scraper.py` lines 220–236):
parent truthy, a `tr` ancestor with at least two `td`s, a `span` in
`cells[1]`, and its text — stripped, commas removed — all digits. -/
def nodePrice (n : PriceNode) : Option Nat :=
  if n.parentExists then
    match n.trCells with
    | some cells =>
      if 2 ≤ cells.length then
        match cells[1]? with
        | some (some spanText) => pyToNat (removeCommas (pyStrip spanText))
        | _ => none
      else none
    | none => none
  else none

/-- First node that yields a price. -/
def scanNodes : List PriceNode → Option Nat
  | [] => none
  | n :: rest =>
    match nodePrice n with
    | some p => some p
    | none => scanNodes rest

/-- One sales-history cell (`scraper.py` lines 263–274): stripped, commas
removed, all digits, at least 2 digits, value at least 10. -/
def cellPrice (cellText : String) : Option Nat :=
  let t := removeCommas (pyStrip cellText)
  match pyToNat t with
  | some v => if 2 ≤ t.length ∧ 10 ≤ v then some v else none
  | none => none

def scanCells : List String → Option Nat
  | [] => none
  | c :: rest =>
    match cellPrice c with
    | some p => some p
    | none => scanCells rest

def scanTables : List (List String) → Option Nat
  | [] => none
  | t :: rest =>
    match scanCells t with
    | some p => some p
    | none => scanTables rest

/-- Unit-price extraction, methods 1–4 (`scraper.py` lines 214–280):
Median row, then Last row, then first qualifying sales-history cell,
else 0. -/
def extractPrice (doc : Doc) : Nat :=
  match scanNodes doc.medianNodes with
  | some p => p
  | none =>
    match scanNodes doc.lastNodes with
    | some p => p
    | none =>
      match scanTables doc.salesTables with
      | some p => p
      | none => 0

/-- Stack-page price extraction (`scraper.py` lines 130–173): Median then
Last only, else 0. -/
def extractPriceML (doc : Doc) : Nat :=
  match scanNodes doc.medianNodes with
  | some p => p
  | none =>
    match scanNodes doc.lastNodes with
    | some p => p
    | none => 0

/-- Sales-per-day extraction (`scraper.py` lines 205–212 and 176–184):
first whitespace token of the grandparent text, parsed as a float and
rounded to 2 places; any failure (missing chain, `IndexError`,
`ValueError`) yields 0. -/
def extractSpd (doc : Doc) : ℚ :=
  match doc.spdGrandparentText with
  | none => 0
  | some txt =>
    match (pySplitWs txt).head? with
    | none => 0
    | some t =>
      if t = "" then 0
      else
        match parseFloatQ t with
        | none => 0
        | some q => pyRound2 q

/-- The `item_data` dict as initialized (`scraper.py` lines 35–45). -/
def initialItemData (itemId : Nat) : ItemData :=
  { itemid := itemId, name := "Unknown", price := 0, stack_price := 0,
    sold_per_day := 0, stack_sold_per_day := 0, category := "",
    rarity := "Common", stackable := "No", is_stack_price := none }

/-- Lines 48–64: resolve the name and the inline `x<digits>` stack-size
marker. -/
def nameStep (doc : Doc) (d : ItemData) : ItemData :=
  match doc.nameSpan with
  | none => d
  | some raw =>
    let nameText := cleanNameText raw
    match findXNum nameText.toList with
    | some sz =>
      { d with name := pyStrip (String.mk (subXNum nameText.toList)),
               stackable := sz, is_stack_price := some true }
    | none => { d with name := nameText, is_stack_price := some false }

/-- Lines 66–73: category from the breadcrumb links. -/
def categoryStep (doc : Doc) (d : ItemData) : ItemData :=
  let cats := (doc.breadcrumbTexts.map pyStrip).filter
    (fun c => c ≠ "" ∧ c ≠ "Root")
  { d with category := if cats.isEmpty then "Unknown"
                       else String.intercalate " > " cats }

/-- Lines 75–100: rarity string from the flag scan. -/
def flagsStep (doc : Doc) (d : ItemData) : ItemData :=
  let flags := rarityFlags doc.itemStats
  { d with rarity := if flags.isEmpty then "Common"
                     else String.intercalate ", " flags }

/-- Lines 102–203: the secondary stack-page fetch, attempted only when the
stack size was not already read off the name and a `?stack=1` link exists.
All failure paths (fetch raised, no name on the stack page, no `x<digits>`
marker there) leave `stackable = "Yes"` with zero stack price/velocity;
line 203 sets `is_stack_price` to `False` on every path through the
block. -/
def stackStep (doc : Doc) (stackRes : Except Unit Doc) (d : ItemData) : ItemData :=
  if d.stackable = "No" then
    match doc.stackLinkHref with
    | none => d
    | some _ =>
      let d' :=
        match stackRes with
        | .error _ =>
          { d with stackable := "Yes", stack_price := 0, stack_sold_per_day := 0 }
        | .ok sdoc =>
          match sdoc.nameSpan with
          | none =>
            { d with stackable := "Yes", stack_price := 0, stack_sold_per_day := 0 }
          | some sraw =>
            match findXNum (cleanNameText sraw).toList with
            | none =>
              { d with stackable := "Yes", stack_price := 0, stack_sold_per_day := 0 }
            | some sz =>
              { d with stackable := sz,
                       stack_price := extractPriceML sdoc,
                       stack_sold_per_day := extractSpd sdoc }
      { d' with is_stack_price := some false }
  else d

/-- `MarketMinerScraper.get_item_data` (`scraper.py` lines 32–282), given the
parsed primary document and the outcome of the optional secondary stack-page
fetch (`.error ()` = the fetch raised; the `except` at lines 196–201).
After the four blocks above, lines 205–212 extract the sales-per-day figure
and lines 214–280 the unit price. -/
def getItemData (itemId : Nat) (doc : Doc) (stackRes : Except Unit Doc) : ItemData :=
  let d := nameStep doc (initialItemData itemId)
  let d := categoryStep doc d
  let d := flagsStep doc d
  let d := stackStep doc stackRes d
  { d with sold_per_day := extractSpd doc, price := extractPrice doc }

/-- A fetch attempt as the orchestrator sees it: the network steps raised
(`get_item_data` returns `None`, lines 284–289) or a parsed document plus
the stack-fetch environment. -/
inductive Fetched where
  | fail
  | page (doc : Doc) (stackRes : Except Unit Doc)

/-- `get_item_data` including its failure path. -/
def fetchItem (itemId : Nat) : Fetched → Option ItemData
  | .fail => none
  | .page doc stackRes => some (getItemData itemId doc stackRes)

/-! ## Orchestrator (`main_window.py`, `scrape_worker`) -/

/-- A per-market row: `row = dict(result); row["server"] = sname`. -/
structure Row where
  item : ItemData
  server : String
deriving DecidableEq

/-- `any(flag in rarity for flag in ["Exclusive", "No Auction", "No Sale"])`
(`main_window.py` lines 529, 557, 659): Python `in` is substring
containment. -/
def hasNonSellableFlag (rarity : String) : Bool :=
  strContains rarity "Exclusive" || strContains rarity "No Auction" ||
    strContains rarity "No Sale"

/-- What the query-phase loop does with one completed job's result. -/
inductive Disposition where
  | found
  | skipped (name reason : String)
deriving DecidableEq

/-- Result handling in the query-phase loop (`main_window.py` lines
639–704): `None` → "failed to fetch or parse"; unresolved name → "no item
name"; positive price → found; otherwise "non-sellable/non-tradeable" when
flagged, else "no price found". -/
def mainDisposition (res : Option ItemData) : Disposition :=
  match res with
  | none => .skipped "Unknown" "failed to fetch or parse"
  | some row =>
    if row.name = "Unknown" then .skipped "Unknown" "no item name"
    else if 0 < row.price then .found
    else
      .skipped row.name
        (if hasNonSellableFlag row.rarity then "non-sellable/non-tradeable"
         else "no price found")

/-- A validation job's outcome as seen at `val_fut.result()`: the future
raised, or it returned `get_item_data`'s value. -/
inductive ValRes where
  | exc (msg : String)
  | got (res : Option ItemData)

/-- Does the item join `validated_items` (`main_window.py` lines 518–569)?
Requires a returned record, a resolved name, and no non-sellable flag. -/
def valPasses : ValRes → Bool
  | .exc _ => false
  | .got none => false
  | .got (some d) => d.name ≠ "Unknown" && !hasNonSellableFlag d.rarity

/-- The `save_skip` reason the validation phase records for an item, `none`
when the item is kept with a positive price (`main_window.py` lines
518–569). -/
def valSkipReason : ValRes → Option String
  | .exc e => some ("validation error: " ++ e)
  | .got none => some "item does not exist"
  | .got (some d) =>
    if d.name = "Unknown" then some "item does not exist"
    else if hasNonSellableFlag d.rarity then some "non-sellable/non-tradeable"
    else if 0 < d.price then none
    else
      some (if hasNonSellableFlag d.rarity then "non-sellable/non-tradeable"
            else "no price found")

/-- The `validated_items` set built from the validation outcomes, in
completion order. -/
def validatedItems (outcomes : List (Nat × ValRes)) : List Nat :=
  (outcomes.filter (fun p => valPasses p.2)).map Prod.fst

/-- Phase-2 job enumeration (`main_window.py` lines 594–602): one job per
validated item per remaining (non-validation) market. -/
def phase2Jobs (validated : List Nat) (remaining : List String) : List (Nat × String) :=
  validated.flatMap (fun i => remaining.map (fun m => (i, m)))

/-! ## Reconciliation (`main_window.py`, `_compute_comparison`) -/

inductive PriceType where
  | individual
  | stack
deriving DecidableEq

/-- `d.get("stack_price", 0)` when comparing stacks, else `d.get("price", 0)`. -/
def rowPrice (r : Row) : PriceType → Nat
  | .stack => r.item.stack_price
  | .individual => r.item.price

/-- The `server_prices` dict (`main_window.py` lines 217–227): only rows
with a strictly positive price enter it. -/
def buildPrices (rows : List Row) (pt : PriceType) : List (String × Nat) :=
  rows.foldl
    (fun d r => if 0 < rowPrice r pt then dictInsert d r.server (rowPrice r pt) else d)
    []

/-- Python `min(d, key=d.get)` over insertion order: first strict minimum
wins. -/
def minFold (best : String × Nat) : List (String × Nat) → String × Nat
  | [] => best
  | p :: rest => minFold (if p.2 < best.2 then p else best) rest

/-- Python `max(d, key=d.get)` over insertion order: first strict maximum
wins. -/
def maxFold (best : String × Nat) : List (String × Nat) → String × Nat
  | [] => best
  | p :: rest => maxFold (if best.2 < p.2 then p else best) rest

def sumVals (l : List (String × Nat)) : Nat :=
  (l.map Prod.snd).sum

/-- The comparison row emitted by `_compute_comparison`. -/
structure CmpRow where
  itemid : Nat
  name : String
  category : String
  lowest_price : Nat
  lowest_server : String
  highest_price : Nat
  highest_server : String
  average_price : ℚ
  price_difference : Nat
  server_count : Nat
deriving DecidableEq

/-- `item_name` (`main_window.py` lines 240–245): the first row's name, with
a `" (Stack x<size>)"` suffix for stack comparisons when that row is
stackable. -/
def cmpName (base : Row) : PriceType → String
  | .individual => base.item.name
  | .stack =>
    base.item.name ++
      (if base.item.stackable ≠ "No" then " (Stack x" ++ base.item.stackable ++ ")"
       else "")

/-- `MarketMinerGUI._compute_comparison` (`main_window.py` lines 212–258).
The `[], _` arm with two or more collected prices cannot arise (the prices
are built from the rows), so mapping it to `none` is unreachable. -/
def computeComparison (itemId : Nat) (rows : List Row) (pt : PriceType) : Option CmpRow :=
  let sp := buildPrices rows pt
  match sp, rows with
  | p :: q :: rest, base :: _ =>
    let lo := minFold p (q :: rest)
    let hi := maxFold p (q :: rest)
    some { itemid := itemId
           name := cmpName base pt
           category := base.item.category
           lowest_price := lo.2
           lowest_server := lo.1
           highest_price := hi.2
           highest_server := hi.1
           average_price := (sumVals sp : ℚ) / (sp.length : ℚ)
           price_difference := hi.2 - lo.2
           server_count := sp.length }
  | _, _ => none

/-! ## Result store merge (`main_window.py` lines 732–762) -/

/-- One per-market CSV row.  `_key` stringifies `itemid` and `server`
(`str(row.get("itemid", ""))`), so the key fields are carried as strings;
`rest` stands for the remaining CSV columns, which the merge never
inspects. -/
structure RsRow where
  itemid : String
  server : String
  rest : List String
deriving DecidableEq

/-- `_key(row)` (`main_window.py` lines 751–752). -/
def rsKey (r : RsRow) : String × String :=
  (r.itemid, r.server)

/-- `{_key(r): r for r in rows}`: later rows overwrite earlier ones sharing
a key. -/
def rowsToDict (rows : List RsRow) : List ((String × String) × RsRow) :=
  rows.foldl (fun m r => dictInsert m (rsKey r) r) []

/-- The result-store merge (`main_window.py` lines 754–756): the dict of
existing rows, then every new row written over it. -/
def mergeRows (newRows existingRows : List RsRow) : List ((String × String) × RsRow) :=
  newRows.foldl (fun m r => dictInsert m (rsKey r) r) (rowsToDict existingRows)

/-! ## Skip cache (`main_window.py`, nested `save_skip`, lines 419–448) -/

structure SkipEntry where
  itemid : Nat
  name : String
  reason : String
deriving DecidableEq

/-- `[p.strip() for p in existing.split(";") if p.strip()] if existing
else []`. -/
def parseParts (existing : String) : List String :=
  if existing = "" then []
  else (((splitOnPred (fun c => c = ';') existing.toList).map
    (fun l => pyStrip (String.mk l))).filter (fun p => p ≠ ""))

/-- The data transformation of `save_skip` (`main_window.py` lines
422–441): read the dict, merge one exclusion into it.  `name or "Unknown"`
maps the empty string to `"Unknown"`. -/
def saveSkip (data : List (String × SkipEntry)) (itemId : Nat) (name reason : String) :
    List (String × SkipEntry) :=
  let key := toString itemId
  let name := if name = "" then "Unknown" else name
  let entry := (dictGet data key).getD ⟨itemId, name, reason⟩
  let entry :=
    if entry.name = "Unknown" ∧ name ≠ "Unknown" then { entry with name := name }
    else entry
  let parts := parseParts entry.reason
  let parts := if reason ∈ parts then parts else parts ++ [reason]
  let entry := { entry with reason := String.intercalate "; " parts }
  dictInsert data key entry

/-! ## Persistence model for the skip-cache file

`save_skip` writes with `open(skipped_path, "w")` followed by
`json.dump`: opening with mode `"w"` truncates the live file at once, and
the dump then streams the new contents.  A `FileContent` is what a later
`json.load` sees: a well-formed file with data, or a missing file, or a
truncated/partial file (`corrupt`) on which `json.load` raises. -/

inductive FileContent where
  | missing
  | corrupt
  | full (data : List (String × SkipEntry))
deriving DecidableEq

/-- The loader (`main_window.py` lines 410–417 and 423–425): a missing file
or a `json.load` failure yields the empty dict. -/
def readSkipCache : FileContent → List (String × SkipEntry)
  | .full d => d
  | _ => []

/-- The write part of `save_skip` as file-state steps: `open(path, "w")`
truncates (an empty or partial file is not valid JSON), then a completed
`json.dump` leaves the new data. -/
def saveSkipFileOps (d : List (String × SkipEntry)) : List (FileContent → FileContent) :=
  [fun _ => .corrupt, fun _ => .full d]

def applyOps : List (FileContent → FileContent) → FileContent → FileContent
  | [], fc => fc
  | op :: rest, fc => applyOps rest (op fc)

/-- The file state after the first `n` steps of a write — a write that
fails partway performed a proper prefix of the steps. -/
def crashAfter (ops : List (FileContent → FileContent)) (n : Nat) (fc : FileContent) :
    FileContent :=
  applyOps (ops.take n) fc

/-! ## Concrete fixtures used by the witnesses and counterexamples -/

/-- A populated `ItemData` as the orchestrator receives it. -/
def sampleItem (id : Nat) (nm : String) (p stackP : Nat) (cat rar stk : String) : ItemData :=
  { itemid := id, name := nm, price := p, stack_price := stackP, sold_per_day := 0,
    stack_sold_per_day := 0, category := cat, rarity := rar, stackable := stk,
    is_stack_price := some false }

/-- A `"Median"`/`"Last"` text node inside `<tr><td>…</td><td><span>t</span></td></tr>`. -/
def rowNode (t : String) : PriceNode :=
  ⟨true, some [none, some t]⟩

/-- A flagged (Rare/Exclusive) item page that nevertheless carries a Median
price and a sales-per-day figure. -/
def docFlagged : Doc :=
  { nameSpan := some "Adamantoise Shell",
    itemStats := some "Rare Exclusive",
    medianNodes := [rowNode "1,200"],
    spdGrandparentText := some "3.5 sales per day" }

/-- An item page whose name carries the inline stack marker. -/
def docInlineStack : Doc :=
  { nameSpan := some "Alexandrite x99" }

/-- A stackable item page with a `?stack=1` link whose secondary fetch
fails. -/
def docStackLinked : Doc :=
  { nameSpan := some "Arrowwood Log",
    stackLinkHref := some "/item/1?stack=1" }

/-- Cross-market rows for one item: positive prices on A and C, none on B. -/
def rowsThreeMarkets : List Row :=
  [⟨sampleItem 7 "Oak Log" 100 0 "Wood" "Common" "No", "A"⟩,
   ⟨sampleItem 7 "Oak Log" 0 0 "Wood" "Common" "No", "B"⟩,
   ⟨sampleItem 7 "Oak Log" 150 0 "Wood" "Common" "No", "C"⟩]

/-- Rows whose earliest-completed market has no stack price. -/
def rowsStackHeadZero : List Row :=
  [⟨sampleItem 9 "Oak Log" 50 0 "Wood" "Common" "12", "A"⟩,
   ⟨sampleItem 9 "Oak Log" 55 600 "Wood" "Common" "12", "B"⟩,
   ⟨sampleItem 9 "Oak Log" 52 900 "Wood" "Common" "12", "C"⟩]

/-- A result-store row persisted by an earlier run against marketA. -/
def rs7A : RsRow := ⟨"7", "marketA", ["Oak Log", "100"]⟩

/-- A result-store row produced by the current run against marketB. -/
def rs7B : RsRow := ⟨"7", "marketB", ["Oak Log", "140"]⟩

/-- A successfully fetched record with no resolved name and no price. -/
def zeroUnknownItem : ItemData := sampleItem 5 "Unknown" 0 0 "" "Common" "No"

/-- A named, flagged record without a price. -/
def flaggedZeroItem : ItemData := sampleItem 3 "Excalibur" 0 0 "Weapons" "Rare, Exclusive" "No"

/-- A named, unflagged record without a price. -/
def plainZeroItem : ItemData := sampleItem 8 "Oak Log" 0 0 "Wood" "Common" "No"

/-- A named, sellable record with a price. -/
def pricedItem : ItemData := sampleItem 2 "Oak Log" 120 0 "Wood" "Common" "No"

/-- Validation outcomes: a missing item, a good item, a flagged item and a
raised future. -/
def exValOutcomes : List (Nat × ValRes) :=
  [(1, .got none), (2, .got (some pricedItem)), (3, .got (some flaggedZeroItem)),
   (4, .exc "boom")]

/-- A previously committed skip cache holding one entry. -/
def priorSkipData : List (String × SkipEntry) :=
  [("7", ⟨7, "Mythril Ore", "no price found"⟩)]

/-! ## Helper lemmas -/

theorem dictGet_dictInsert {K V : Type} [DecidableEq K] (m : List (K × V)) (k k' : K) (v : V) :
    dictGet (dictInsert m k v) k' = if k = k' then some v else dictGet m k' := by
  induction m with
  | nil => simp [dictInsert, dictGet]
  | cons hd tl ih =>
    obtain ⟨a, b⟩ := hd
    by_cases hak : a = k
    · subst hak
      by_cases h : a = k' <;> simp [dictInsert, dictGet, h]
    · by_cases h : a = k'
      · subst h
        have hka : ¬k = a := fun hh => hak hh.symm
        simp [dictInsert, dictGet, hak, hka]
      · simp [dictInsert, dictGet, hak, h, ih]

theorem rsFold_get (rows : List RsRow) (m : List ((String × String) × RsRow))
    (k : String × String) :
    dictGet (rows.foldl (fun d r => dictInsert d (rsKey r) r) m) k =
      match dictGet (rowsToDict rows) k with
      | some v => some v
      | none => dictGet m k := by
  induction rows generalizing m with
  | nil => simp [rowsToDict, dictGet]
  | cons r rest ih =>
    have h1 : (r :: rest).foldl (fun d x => dictInsert d (rsKey x) x) m
        = rest.foldl (fun d x => dictInsert d (rsKey x) x) (dictInsert m (rsKey r) r) := rfl
    have h2 : rowsToDict (r :: rest)
        = rest.foldl (fun d x => dictInsert d (rsKey x) x) (dictInsert [] (rsKey r) r) := rfl
    rw [h1, h2, ih, ih]
    cases h : dictGet (rowsToDict rest) k with
    | some v => rfl
    | none =>
      simp only []
      rw [dictGet_dictInsert, dictGet_dictInsert]
      by_cases hk : rsKey r = k <;> simp [hk, dictGet]

theorem eq_snd_of_nodup_fst {α β : Type} (l : List (α × β)) (a : α) (b c : β)
    (hnd : (l.map Prod.fst).Nodup) (hb : (a, b) ∈ l) (hc : (a, c) ∈ l) : b = c := by
  induction l with
  | nil => simp at hb
  | cons hd tl ih =>
    simp only [List.map_cons, List.nodup_cons] at hnd
    rcases List.mem_cons.mp hb with hb1 | hb1 <;> rcases List.mem_cons.mp hc with hc1 | hc1
    · rw [← hb1] at hc1; exact (Prod.mk.injEq _ _ _ _ ▸ hc1).2.symm
    · exfalso
      exact hnd.1 (hb1 ▸ (List.mem_map.mpr ⟨(a, c), hc1, rfl⟩ : a ∈ tl.map Prod.fst))
    · exfalso
      exact hnd.1 (hc1 ▸ (List.mem_map.mpr ⟨(a, b), hb1, rfl⟩ : a ∈ tl.map Prod.fst))
    · exact ih hnd.2 hb1 hc1

theorem mem_phase2Jobs (validated : List Nat) (remaining : List String) (i : Nat)
    (m : String) :
    (i, m) ∈ phase2Jobs validated remaining ↔ i ∈ validated ∧ m ∈ remaining := by
  simp only [phase2Jobs, List.mem_flatMap, List.mem_map]
  constructor
  · rintro ⟨a, ha, b, hb, hab⟩
    obtain ⟨rfl, rfl⟩ := Prod.mk.injEq .. ▸ hab
    exact ⟨ha, hb⟩
  · rintro ⟨ha, hb⟩
    exact ⟨i, ha, m, hb, rfl⟩

theorem mem_validatedItems (outcomes : List (Nat × ValRes)) (i : Nat) :
    i ∈ validatedItems outcomes ↔ ∃ r, (i, r) ∈ outcomes ∧ valPasses r = true := by
  simp only [validatedItems, List.mem_map, List.mem_filter]
  constructor
  · rintro ⟨⟨a, r⟩, ⟨hmem, hpass⟩, rfl⟩
    exact ⟨r, hmem, hpass⟩
  · rintro ⟨r, hmem, hpass⟩
    exact ⟨(i, r), ⟨hmem, hpass⟩, rfl⟩

/-! ## Claim theorems -/

/-- C4: the result-store merge is keyed by the string pair (item id, market);
every key present in the new rows maps to its new row, overwriting any prior
row with that key, and every row whose key appears only in the existing rows
is preserved unchanged — in particular an existing (7, marketA) row survives
a run covering only marketB, which adds a (7, marketB) row. -/
theorem claim4_result_store_merge :
    (∀ (newRows existingRows : List RsRow) (k : String × String),
        dictGet (mergeRows newRows existingRows) k =
          match dictGet (rowsToDict newRows) k with
          | some r => some r
          | none => dictGet (rowsToDict existingRows) k)
    ∧ (∀ (newRows existingRows : List RsRow) (k : String × String) (r : RsRow),
        dictGet (rowsToDict newRows) k = some r →
        dictGet (mergeRows newRows existingRows) k = some r)
    ∧ (∀ (newRows existingRows : List RsRow) (k : String × String),
        dictGet (rowsToDict newRows) k = none →
        dictGet (mergeRows newRows existingRows) k = dictGet (rowsToDict existingRows) k)
    ∧ dictGet (mergeRows [rs7B] [rs7A]) ("7", "marketA") = some rs7A
    ∧ dictGet (mergeRows [rs7B] [rs7A]) ("7", "marketB") = some rs7B := by
  have hmain : ∀ (newRows existingRows : List RsRow) (k : String × String),
      dictGet (mergeRows newRows existingRows) k =
        match dictGet (rowsToDict newRows) k with
        | some r => some r
        | none => dictGet (rowsToDict existingRows) k :=
    fun newRows existingRows k => rsFold_get newRows (rowsToDict existingRows) k
  refine ⟨hmain, ?_, ?_, by decide, by decide⟩
  · intro newRows existingRows k r h
    rw [hmain, h]
  · intro newRows existingRows k h
    rw [hmain, h]

/-- C5: `save_skip` merges rather than overwrites: an existing entry keeps
its item id, its name is backfilled only when currently `"Unknown"`, and the
new reason joins the ordered distinct-reason list only when not already
present under string equality; entries under other keys are untouched.
Recording "no price found" then "non-sellable/non-tradeable" yields both
reasons in first-seen order, and recording the same reason twice changes
nothing. -/
theorem claim5_skip_cache_merge :
    (∀ (data : List (String × SkipEntry)) (itemId : Nat) (nm reason : String) (e : SkipEntry),
        dictGet data (toString itemId) = some e →
        dictGet (saveSkip data itemId nm reason) (toString itemId) =
          some { itemid := e.itemid
                 name := if e.name = "Unknown" ∧ (if nm = "" then "Unknown" else nm) ≠ "Unknown"
                         then (if nm = "" then "Unknown" else nm) else e.name
                 reason := String.intercalate "; "
                   (if reason ∈ parseParts e.reason then parseParts e.reason
                    else parseParts e.reason ++ [reason]) })
    ∧ (∀ (data : List (String × SkipEntry)) (itemId : Nat) (nm reason : String) (k : String),
        k ≠ toString itemId →
        dictGet (saveSkip data itemId nm reason) k = dictGet data k)
    ∧ dictGet (saveSkip (saveSkip [] 7 "Mythril Ore" "no price found") 7 "Mythril Ore"
        "non-sellable/non-tradeable") "7"
        = some ⟨7, "Mythril Ore", "no price found; non-sellable/non-tradeable"⟩
    ∧ saveSkip (saveSkip [] 7 "Mythril Ore" "no price found") 7 "Mythril Ore" "no price found"
        = saveSkip [] 7 "Mythril Ore" "no price found"
    ∧ dictGet (saveSkip (saveSkip [] 7 "" "no price found") 7 "Mythril Ore" "no item name") "7"
        = some ⟨7, "Mythril Ore", "no price found; no item name"⟩ := by
  refine ⟨?_, ?_, by decide, by decide, by decide⟩
  · intro data itemId nm reason e h
    simp only [saveSkip, h, Option.getD_some]
    rw [dictGet_dictInsert]
    simp only [if_pos rfl]
    rcases Decidable.em (e.name = "Unknown") with h1 | h1 <;>
      rcases Decidable.em (nm = "") with h2 | h2 <;>
        rcases Decidable.em (nm = "Unknown") with h3 | h3 <;>
          simp [h1, h2, h3]
  · intro data itemId nm reason k hk
    simp only [saveSkip]
    rw [dictGet_dictInsert, if_neg (fun h => hk h.symm)]

/-- C6: in a multi-market run the phase-2 job set is exactly the validated
item ids crossed with the non-validation markets; an item id that fails the
validation pass (missing item, non-sellable flags, or a raised validation
future) is scheduled against zero remaining markets. -/
theorem claim6_validation_gate :
    (∀ (validated : List Nat) (remaining : List String) (i : Nat) (m : String),
        (i, m) ∈ phase2Jobs validated remaining ↔ i ∈ validated ∧ m ∈ remaining)
    ∧ (∀ (outcomes : List (Nat × ValRes)) (remaining : List String) (i : Nat) (r : ValRes)
        (m : String),
        (i, r) ∈ outcomes → (outcomes.map Prod.fst).Nodup → valPasses r = false →
        (i, m) ∉ phase2Jobs (validatedItems outcomes) remaining)
    ∧ validatedItems exValOutcomes = [2]
    ∧ phase2Jobs (validatedItems exValOutcomes) ["MarketB", "MarketC"]
        = [(2, "MarketB"), (2, "MarketC")] := by
  refine ⟨mem_phase2Jobs, ?_, by decide, by decide⟩
  intro outcomes remaining i r m hmem hnd hfail hjob
  obtain ⟨hival, _⟩ := (mem_phase2Jobs _ _ _ _).mp hjob
  obtain ⟨r', hmem', hpass⟩ := (mem_validatedItems _ _).mp hival
  have heq : r = r' := eq_snd_of_nodup_fst outcomes i r r' hnd hmem hmem'
  rw [← heq, hfail] at hpass
  cases hpass

/-- C7 counterexample: a successfully fetched record with unit price 0,
no non-sellable flag, but an unresolved name is recorded with reason
"no item name" (query phase) and "item does not exist" (validation phase),
not "no price found" as the claim states. -/
theorem claim7_counterexample :
    zeroUnknownItem.price = 0
    ∧ hasNonSellableFlag zeroUnknownItem.rarity = false
    ∧ mainDisposition (some zeroUnknownItem) = .skipped "Unknown" "no item name"
    ∧ valSkipReason (.got (some zeroUnknownItem)) = some "item does not exist"
    ∧ "no item name" ≠ "no price found" := by
  decide

/-- C7 amended: for every successfully fetched record whose name is
resolved (≠ "Unknown") and whose unit price is 0, the recorded exclusion
reason is "no price found" unless the record's flags include one of
Exclusive / No Auction / No Sale, in which case "non-sellable/non-tradeable"
takes precedence — in both the query phase and the validation phase. -/
theorem claim7_amended :
    (∀ d : ItemData, d.name ≠ "Unknown" → d.price = 0 →
        mainDisposition (some d) =
          .skipped d.name (if hasNonSellableFlag d.rarity then "non-sellable/non-tradeable"
                           else "no price found")
      ∧ valSkipReason (.got (some d)) =
          some (if hasNonSellableFlag d.rarity then "non-sellable/non-tradeable"
                else "no price found"))
    ∧ mainDisposition (some flaggedZeroItem) = .skipped "Excalibur" "non-sellable/non-tradeable"
    ∧ mainDisposition (some plainZeroItem) = .skipped "Oak Log" "no price found" := by
  refine ⟨?_, by decide, by decide⟩
  intro d h1 h2
  constructor
  · simp [mainDisposition, h1, h2]
  · by_cases hf : hasNonSellableFlag d.rarity <;> simp [valSkipReason, h1, h2, hf]

/-- C9 counterexample: `save_skip` truncates `skipped_items.json` in place
(`open(path, "w")`) before dumping; a write failing between the truncate and
the completed dump leaves an unreadable file, so the readable entry set is
empty and differs from the nonempty set committed before the write began.
-/
theorem claim9_counterexample :
    crashAfter (saveSkipFileOps (saveSkip priorSkipData 8 "Unknown" "no item name")) 1
        (.full priorSkipData) = .corrupt
    ∧ readSkipCache (crashAfter (saveSkipFileOps
        (saveSkip priorSkipData 8 "Unknown" "no item name")) 1 (.full priorSkipData)) = []
    ∧ readSkipCache (.full priorSkipData) = priorSkipData
    ∧ priorSkipData ≠ [] := by
  refine ⟨rfl, rfl, rfl, by decide⟩

/-- C9 amended: skip-cache persistence is an in-place truncate-and-rewrite,
not write-replace: whatever was committed before, a write that fails after
the truncate step leaves a corrupt file from which zero entries are
readable, while a completed write leaves exactly the merged data. -/
theorem claim9_amended :
    ∀ (d0 dnew : List (String × SkipEntry)),
      crashAfter (saveSkipFileOps dnew) 1 (.full d0) = .corrupt
      ∧ readSkipCache (crashAfter (saveSkipFileOps dnew) 1 (.full d0)) = []
      ∧ crashAfter (saveSkipFileOps dnew) 2 (.full d0) = .full dnew := by
  intro d0 dnew
  exact ⟨rfl, rfl, rfl⟩

theorem digitRun_fst_digits (l : List Char) : (digitRun l).1.all Char.isDigit = true := by
  induction l with
  | nil => rfl
  | cons c rest ih =>
    by_cases h : c.isDigit <;> simp [digitRun, h, ih]

theorem findXNum_digits (l : List Char) (s : String) (h : findXNum l = some s) :
    pyIsDigit s = true := by
  induction l with
  | nil => simp [findXNum] at h
  | cons c rest ih =>
    unfold findXNum at h
    by_cases hc : c = 'x'
    · rw [if_pos hc] at h
      rcases hdr : digitRun rest with ⟨ds, r⟩
      rw [hdr] at h
      cases ds with
      | nil => exact ih h
      | cons d ds' =>
        change some (String.mk (d :: ds')) = some s at h
        obtain rfl : String.mk (d :: ds') = s := Option.some.inj h
        have hall := digitRun_fst_digits rest
        rw [hdr] at hall
        show (!(d :: ds').isEmpty && (d :: ds').all Char.isDigit) = true
        simp [hall]
    · rw [if_neg hc] at h
      exact ih h

theorem stackStep_preserved (doc : Doc) (sr : Except Unit Doc) (d : ItemData) :
    (stackStep doc sr d).itemid = d.itemid
    ∧ (stackStep doc sr d).name = d.name
    ∧ (stackStep doc sr d).category = d.category
    ∧ (stackStep doc sr d).rarity = d.rarity
    ∧ (stackStep doc sr d).price = d.price
    ∧ (stackStep doc sr d).sold_per_day = d.sold_per_day := by
  unfold stackStep
  rcases Decidable.em (d.stackable = "No") with h | h
  · simp only [if_pos h]
    rcases hl : doc.stackLinkHref with _ | link <;> simp only [hl]
    · simp
    · rcases sr with _ | sdoc
      · simp
      · rcases hns : sdoc.nameSpan with _ | sraw <;> simp only [hns]
        · simp
        · rcases hfx : findXNum (cleanNameText sraw).toList with _ | sz <;>
            simp only [hfx] <;> simp
  · simp only [if_neg h]
    simp

theorem stackStep_cases (doc : Doc) (sr : Except Unit Doc) (d : ItemData) :
    stackStep doc sr d = d
    ∨ ((stackStep doc sr d).stackable = "Yes"
       ∧ (stackStep doc sr d).stack_price = 0
       ∧ (stackStep doc sr d).stack_sold_per_day = 0)
    ∨ (∃ sdoc sz, sr = .ok sdoc
       ∧ (stackStep doc sr d).stackable = sz
       ∧ pyIsDigit sz = true
       ∧ (stackStep doc sr d).stack_price = extractPriceML sdoc
       ∧ (stackStep doc sr d).stack_sold_per_day = extractSpd sdoc) := by
  unfold stackStep
  rcases Decidable.em (d.stackable = "No") with h | h
  · simp only [if_pos h]
    rcases hl : doc.stackLinkHref with _ | link <;> simp only [hl]
    · left; trivial
    · rcases sr with _ | sdoc
      · right; left; simp
      · rcases hns : sdoc.nameSpan with _ | sraw <;> simp only [hns]
        · right; left; simp
        · rcases hfx : findXNum (cleanNameText sraw).toList with _ | sz <;> simp only [hfx]
          · right; left; simp
          · right; right
            refine ⟨sdoc, sz, rfl, by simp, findXNum_digits _ _ hfx, by simp, by simp⟩
  · simp only [if_neg h]
    left; trivial

theorem nameStep_cases (doc : Doc) (d : ItemData) :
    ((nameStep doc d).stackable = d.stackable
      ∧ (nameStep doc d).stack_price = d.stack_price
      ∧ (nameStep doc d).stack_sold_per_day = d.stack_sold_per_day)
    ∨ ((nameStep doc d).is_stack_price = some true
      ∧ pyIsDigit (nameStep doc d).stackable = true
      ∧ (nameStep doc d).stack_price = d.stack_price
      ∧ (nameStep doc d).stack_sold_per_day = d.stack_sold_per_day) := by
  unfold nameStep
  rcases hns : doc.nameSpan with _ | raw <;> simp only [hns]
  · left; simp
  · rcases hfx : findXNum (cleanNameText raw).toList with _ | sz <;> simp only [hfx]
    · left; simp
    · right
      refine ⟨by simp, ?_, by simp, by simp⟩
      have : (nameStep doc d).stackable = sz := by
        unfold nameStep; simp only [hns, hfx]
      rw [this] at *
      exact findXNum_digits _ _ hfx

/-- C1 counterexample: on a fetched document whose item-stats resolve the
Exclusive flag, the extractor does not stop: it still extracts the Median
unit price (1200, thousands separator stripped) and the sales velocity
(3.5), and returns a full record carrying the flags — there is no terminal
`Excluded` result and pricing extraction is performed. -/
theorem claim1_counterexample :
    hasNonSellableFlag (getItemData 641 docFlagged (.error ())).rarity = true
    ∧ (getItemData 641 docFlagged (.error ())).rarity = "Rare, Exclusive"
    ∧ (getItemData 641 docFlagged (.error ())).price = 1200
    ∧ (getItemData 641 docFlagged (.error ())).sold_per_day = mkRat 7 2
    ∧ (getItemData 641 docFlagged (.error ())).name = "Adamantoise Shell" := by
  refine ⟨by decide, by decide, by decide, by decide, by decide⟩

/-- C1 amended: the extractor never stops on the {exclusive, no-auction,
no-sale} flags: it records them in the record's rarity field and performs
unit-price and sales-velocity extraction on every document regardless of
flags.  The terminal "non-sellable/non-tradeable" exclusion is applied
downstream by the orchestrator: the validation phase excludes every flagged
record with a resolved name, and the query phase excludes flagged records
with a resolved name and no positive price. -/
theorem claim1_amended :
    (∀ (itemId : Nat) (doc : Doc) (sr : Except Unit Doc),
        (getItemData itemId doc sr).price = extractPrice doc
      ∧ (getItemData itemId doc sr).sold_per_day = extractSpd doc
      ∧ (getItemData itemId doc sr).rarity =
          (if (rarityFlags doc.itemStats).isEmpty then "Common"
           else String.intercalate ", " (rarityFlags doc.itemStats)))
    ∧ (∀ d : ItemData, d.name ≠ "Unknown" → hasNonSellableFlag d.rarity = true →
        valSkipReason (.got (some d)) = some "non-sellable/non-tradeable")
    ∧ (∀ d : ItemData, d.name ≠ "Unknown" → hasNonSellableFlag d.rarity = true →
        d.price = 0 →
        mainDisposition (some d) = .skipped d.name "non-sellable/non-tradeable") := by
  refine ⟨?_, ?_, ?_⟩
  · intro itemId doc sr
    refine ⟨rfl, rfl, ?_⟩
    show (stackStep doc sr
      (flagsStep doc (categoryStep doc (nameStep doc (initialItemData itemId))))).rarity = _
    rw [(stackStep_preserved doc sr _).2.2.2.1]
    rfl
  · intro d h1 h2
    simp [valSkipReason, h1, h2]
  · intro d h1 h2 h3
    simp [mainDisposition, h1, h2, h3]

/-- C8 counterexample: bundle size can be partially populated.  A stackable
item whose secondary fetch fails gets the marker `"Yes"` — neither the
`"No"` sentinel nor a concrete size; an item with an inline `x99` name
marker gets the concrete size 99 with bundle price and bundle velocity
still 0 and no secondary fetch at all (bundle-price-is-primary is set
instead). -/
theorem claim8_counterexample :
    (getItemData 11 docStackLinked (.error ())).stackable = "Yes"
    ∧ (getItemData 11 docStackLinked (.error ())).stackable ≠ "No"
    ∧ pyIsDigit (getItemData 11 docStackLinked (.error ())).stackable = false
    ∧ (getItemData 11 docStackLinked (.error ())).stack_price = 0
    ∧ (getItemData 12 docInlineStack (.error ())).stackable = "99"
    ∧ (getItemData 12 docInlineStack (.error ())).is_stack_price = some true
    ∧ (getItemData 12 docInlineStack (.error ())).stack_price = 0
    ∧ (getItemData 12 docInlineStack (.error ())).stack_sold_per_day = 0 := by
  refine ⟨by decide, by decide, by decide, by decide, by decide, by decide, by decide, by decide⟩

/-- C8 amended: every record produced by the extractor is in exactly one of
four bundle states: (i) not bundlable (`"No"`) with bundle price and
velocity 0; (ii) a concrete digit size read off the primary name with
bundle-price-is-primary set and bundle price/velocity 0 (no secondary
fetch); (iii) the `"Yes"` marker — bundlable, size unknown — with bundle
price/velocity 0, on any secondary-fetch or parse failure; (iv) a concrete
digit size from a successful secondary fetch, with bundle price and bundle
velocity extracted from the secondary document (each possibly 0 when absent
there). -/
theorem claim8_amended :
    ∀ (itemId : Nat) (doc : Doc) (sr : Except Unit Doc),
      ((getItemData itemId doc sr).stackable = "No"
        ∧ (getItemData itemId doc sr).stack_price = 0
        ∧ (getItemData itemId doc sr).stack_sold_per_day = 0)
      ∨ ((getItemData itemId doc sr).is_stack_price = some true
        ∧ pyIsDigit (getItemData itemId doc sr).stackable = true
        ∧ (getItemData itemId doc sr).stack_price = 0
        ∧ (getItemData itemId doc sr).stack_sold_per_day = 0)
      ∨ ((getItemData itemId doc sr).stackable = "Yes"
        ∧ (getItemData itemId doc sr).stack_price = 0
        ∧ (getItemData itemId doc sr).stack_sold_per_day = 0)
      ∨ (∃ sdoc, sr = .ok sdoc
        ∧ pyIsDigit (getItemData itemId doc sr).stackable = true
        ∧ (getItemData itemId doc sr).stack_price = extractPriceML sdoc
        ∧ (getItemData itemId doc sr).stack_sold_per_day = extractSpd sdoc) := by
  intro itemId doc sr
  rcases stackStep_cases doc sr
      (flagsStep doc (categoryStep doc (nameStep doc (initialItemData itemId)))) with
    heq | ⟨hy1, hy2, hy3⟩ | ⟨sdoc, sz, hsr, hstk, hdig, hsp, hsd⟩
  · rcases nameStep_cases doc (initialItemData itemId) with ⟨h1, h2, h3⟩ | ⟨h1, h2, h3, h4⟩
    · left
      refine ⟨?_, ?_, ?_⟩
      · show (stackStep doc sr _).stackable = "No"
        rw [heq]; exact h1
      · show (stackStep doc sr _).stack_price = 0
        rw [heq]; exact h2
      · show (stackStep doc sr _).stack_sold_per_day = 0
        rw [heq]; exact h3
    · right; left
      refine ⟨?_, ?_, ?_, ?_⟩
      · show (stackStep doc sr _).is_stack_price = some true
        rw [heq]; exact h1
      · show pyIsDigit (stackStep doc sr _).stackable = true
        rw [heq]; exact h2
      · show (stackStep doc sr _).stack_price = 0
        rw [heq]; exact h3
      · show (stackStep doc sr _).stack_sold_per_day = 0
        rw [heq]; exact h4
  · right; right; left
    exact ⟨hy1, hy2, hy3⟩
  · right; right; right
    refine ⟨sdoc, hsr, ?_, hsp, hsd⟩
    show pyIsDigit (stackStep doc sr _).stackable = true
    rw [hstk]; exact hdig

/-- C3: unit-price extraction follows the strict fallback priority Median
row, then Last row, then the first sales-history cell holding an integer
≥ 10 with at least 2 digits; every method strips thousands separators
before parsing; a non-digit candidate is skipped rather than treated as
zero; and when every method fails the price is 0, not an error. -/
theorem claim3_price_fallback :
    (∀ (doc : Doc) (p : Nat), scanNodes doc.medianNodes = some p → extractPrice doc = p)
    ∧ (∀ (doc : Doc) (p : Nat), scanNodes doc.medianNodes = none →
        scanNodes doc.lastNodes = some p → extractPrice doc = p)
    ∧ (∀ (doc : Doc) (p : Nat), scanNodes doc.medianNodes = none →
        scanNodes doc.lastNodes = none → scanTables doc.salesTables = some p →
        extractPrice doc = p)
    ∧ (∀ doc : Doc, scanNodes doc.medianNodes = none → scanNodes doc.lastNodes = none →
        scanTables doc.salesTables = none → extractPrice doc = 0)
    ∧ (∀ (n : PriceNode) (rest : List PriceNode), nodePrice n = none →
        scanNodes (n :: rest) = scanNodes rest)
    ∧ (∀ (c : String) (rest : List String), cellPrice c = none →
        scanCells (c :: rest) = scanCells rest)
    ∧ (∀ (c : String) (v : Nat), cellPrice c = some v →
        10 ≤ v ∧ 2 ≤ (removeCommas (pyStrip c)).length
          ∧ pyToNat (removeCommas (pyStrip c)) = some v)
    ∧ nodePrice (rowNode " 1,200 ") = some 1200
    ∧ cellPrice "1,234" = some 1234
    ∧ cellPrice "7" = none
    ∧ cellPrice "05" = none
    ∧ cellPrice "12/05/2023" = none
    ∧ nodePrice (rowNode "n/a") = none := by
  refine ⟨?_, ?_, ?_, ?_, ?_, ?_, ?_,
    by decide, by decide, by decide, by decide, by decide, by decide⟩
  · intro doc p h
    unfold extractPrice
    rw [h]
  · intro doc p h1 h2
    unfold extractPrice
    rw [h1, h2]
  · intro doc p h1 h2 h3
    unfold extractPrice
    rw [h1, h2, h3]
  · intro doc h1 h2 h3
    unfold extractPrice
    rw [h1, h2, h3]
  · intro n rest h
    show (match nodePrice n with
          | some p => some p
          | none => scanNodes rest) = scanNodes rest
    rw [h]
  · intro c rest h
    show (match cellPrice c with
          | some p => some p
          | none => scanCells rest) = scanCells rest
    rw [h]
  · intro c v h
    simp only [cellPrice] at h
    rcases htn : pyToNat (removeCommas (pyStrip c)) with _ | w
    · rw [htn] at h; cases h
    · rw [htn] at h
      have h2 : (if 2 ≤ (removeCommas (pyStrip c)).length ∧ 10 ≤ w then some w
                 else none) = some v := h
      rcases Decidable.em (2 ≤ (removeCommas (pyStrip c)).length ∧ 10 ≤ w) with hc | hc
      · rw [if_pos hc] at h2
        obtain rfl : w = v := Option.some.inj h2
        exact ⟨hc.2, hc.1, rfl⟩
      · rw [if_neg hc] at h2; cases h2

theorem minFold_mem (best : String × Nat) (l : List (String × Nat)) :
    minFold best l ∈ best :: l := by
  induction l generalizing best with
  | nil => simp [minFold]
  | cons p rest ih =>
    have e : minFold best (p :: rest) = minFold (if p.2 < best.2 then p else best) rest := rfl
    rw [e]
    rcases List.mem_cons.mp (ih (if p.2 < best.2 then p else best)) with h | h
    · rw [h]
      rcases Decidable.em (p.2 < best.2) with hc | hc
      · rw [if_pos hc]
        exact List.mem_cons_of_mem _ (List.mem_cons_self _ _)
      · rw [if_neg hc]
        exact List.mem_cons_self _ _
    · exact List.mem_cons_of_mem _ (List.mem_cons_of_mem _ h)

theorem minFold_le (best : String × Nat) (l : List (String × Nat)) :
    ∀ x ∈ best :: l, (minFold best l).2 ≤ x.2 := by
  induction l generalizing best with
  | nil =>
    intro x hx
    rw [List.mem_singleton.mp hx]
    exact Nat.le_refl _
  | cons p rest ih =>
    intro x hx
    have e : minFold best (p :: rest) = minFold (if p.2 < best.2 then p else best) rest := rfl
    rw [e]
    have hb : (minFold (if p.2 < best.2 then p else best) rest).2
        ≤ (if p.2 < best.2 then p else best).2 :=
      ih _ _ (List.mem_cons_self _ _)
    rcases List.mem_cons.mp hx with h | h
    · rw [h]
      refine Nat.le_trans hb ?_
      rcases Decidable.em (p.2 < best.2) with hc | hc
      · rw [if_pos hc]; exact Nat.le_of_lt hc
      · rw [if_neg hc]
    · rcases List.mem_cons.mp h with h2 | h2
      · rw [h2]
        refine Nat.le_trans hb ?_
        rcases Decidable.em (p.2 < best.2) with hc | hc
        · rw [if_pos hc]
        · rw [if_neg hc]; exact Nat.le_of_not_lt hc
      · exact ih _ x (List.mem_cons_of_mem _ h2)

theorem maxFold_mem (best : String × Nat) (l : List (String × Nat)) :
    maxFold best l ∈ best :: l := by
  induction l generalizing best with
  | nil => simp [maxFold]
  | cons p rest ih =>
    have e : maxFold best (p :: rest) = maxFold (if best.2 < p.2 then p else best) rest := rfl
    rw [e]
    rcases List.mem_cons.mp (ih (if best.2 < p.2 then p else best)) with h | h
    · rw [h]
      rcases Decidable.em (best.2 < p.2) with hc | hc
      · rw [if_pos hc]
        exact List.mem_cons_of_mem _ (List.mem_cons_self _ _)
      · rw [if_neg hc]
        exact List.mem_cons_self _ _
    · exact List.mem_cons_of_mem _ (List.mem_cons_of_mem _ h)

theorem maxFold_ge (best : String × Nat) (l : List (String × Nat)) :
    ∀ x ∈ best :: l, x.2 ≤ (maxFold best l).2 := by
  induction l generalizing best with
  | nil =>
    intro x hx
    rw [List.mem_singleton.mp hx]
    exact Nat.le_refl _
  | cons p rest ih =>
    intro x hx
    have e : maxFold best (p :: rest) = maxFold (if best.2 < p.2 then p else best) rest := rfl
    rw [e]
    have hb : (if best.2 < p.2 then p else best).2
        ≤ (maxFold (if best.2 < p.2 then p else best) rest).2 :=
      ih _ _ (List.mem_cons_self _ _)
    rcases List.mem_cons.mp hx with h | h
    · rw [h]
      refine Nat.le_trans ?_ hb
      rcases Decidable.em (best.2 < p.2) with hc | hc
      · rw [if_pos hc]; exact Nat.le_of_lt hc
      · rw [if_neg hc]
    · rcases List.mem_cons.mp h with h2 | h2
      · rw [h2]
        refine Nat.le_trans ?_ hb
        rcases Decidable.em (best.2 < p.2) with hc | hc
        · rw [if_pos hc]
        · rw [if_neg hc]; exact Nat.le_of_not_lt hc
      · exact ih _ x (List.mem_cons_of_mem _ h2)

theorem dictInsert_append {K V : Type} [DecidableEq K] (m : List (K × V)) (k : K) (v : V)
    (h : k ∉ m.map Prod.fst) : dictInsert m k v = m ++ [(k, v)] := by
  induction m with
  | nil => rfl
  | cons hd tl ih =>
    obtain ⟨a, b⟩ := hd
    simp only [List.map_cons, List.mem_cons] at h
    push_neg at h
    have ha : ¬a = k := fun e => h.1 e.symm
    simp [dictInsert, ha, ih h.2]

theorem buildPrices_go (pt : PriceType) (rows : List Row) :
    ∀ m : List (String × Nat),
      (∀ r ∈ rows, r.server ∉ m.map Prod.fst) → (rows.map Row.server).Nodup →
      rows.foldl
        (fun d r => if 0 < rowPrice r pt then dictInsert d r.server (rowPrice r pt) else d) m
        = m ++ (rows.filter (fun r => 0 < rowPrice r pt)).map
            (fun r => (r.server, rowPrice r pt)) := by
  induction rows with
  | nil => intro m _ _; simp
  | cons r rest ih =>
    intro m hfresh hnd
    simp only [List.map_cons, List.nodup_cons] at hnd
    obtain ⟨hnotin, hnd2⟩ := hnd
    simp only [List.foldl_cons]
    rcases Decidable.em (0 < rowPrice r pt) with hp | hp
    · rw [if_pos hp,
        dictInsert_append m r.server (rowPrice r pt) (hfresh r (List.mem_cons_self _ _))]
      rw [ih (m ++ [(r.server, rowPrice r pt)]) ?_ hnd2]
      · rw [List.filter_cons_of_pos (by simpa using hp), List.map_cons]
        simp [List.append_assoc]
      · intro r2 hr2
        simp only [List.map_append, List.mem_append, List.map_cons, List.map_nil,
          List.mem_singleton]
        rintro (hin | heq)
        · exact hfresh r2 (List.mem_cons_of_mem _ hr2) hin
        · exact hnotin (heq ▸ List.mem_map.mpr ⟨r2, hr2, rfl⟩)
    · rw [if_neg hp, ih m (fun r2 h2 => hfresh r2 (List.mem_cons_of_mem _ h2)) hnd2,
        List.filter_cons_of_neg (by simpa using hp)]

theorem buildPrices_eq (rows : List Row) (pt : PriceType)
    (hnd : (rows.map Row.server).Nodup) :
    buildPrices rows pt = (rows.filter (fun r => 0 < rowPrice r pt)).map
      (fun r => (r.server, rowPrice r pt)) := by
  have h := buildPrices_go pt rows [] (by simp) hnd
  simpa [buildPrices] using h

/-- C2: reconciliation filters to records with strictly positive price and
returns none when fewer than 2 remain; otherwise it returns minimum and
maximum priced markets, the arithmetic mean over all positively priced
records, the spread max − min, and the count of positively priced markets;
for records A:100, B:0, C:150 it returns lowest A(100), highest C(150),
mean 125, spread 50, market count 2. -/
theorem claim2_reconciliation :
    (∀ (itemId : Nat) (rows : List Row),
        (rows.map Row.server).Nodup →
        ((rows.filter (fun r => 0 < rowPrice r .individual)).length < 2 →
            computeComparison itemId rows .individual = none)
          ∧ (∀ c : CmpRow, computeComparison itemId rows .individual = some c →
              c.server_count = (rows.filter (fun r => 0 < rowPrice r .individual)).length
              ∧ c.average_price =
                  (((rows.filter (fun r => 0 < rowPrice r .individual)).map
                      (fun r => rowPrice r .individual)).sum : ℚ)
                    / (((rows.filter (fun r => 0 < rowPrice r .individual)).map
                      (fun r => (r.server, rowPrice r .individual))).length : ℚ)
              ∧ c.lowest_price ≤ c.highest_price
              ∧ (c.price_difference : ℤ) = (c.highest_price : ℤ) - (c.lowest_price : ℤ)
              ∧ (∀ r ∈ rows, 0 < rowPrice r .individual →
                  c.lowest_price ≤ rowPrice r .individual
                    ∧ rowPrice r .individual ≤ c.highest_price)
              ∧ (∃ r, r ∈ rows ∧ 0 < rowPrice r .individual
                  ∧ r.server = c.lowest_server ∧ rowPrice r .individual = c.lowest_price)
              ∧ (∃ r, r ∈ rows ∧ 0 < rowPrice r .individual
                  ∧ r.server = c.highest_server ∧ rowPrice r .individual = c.highest_price)))
    ∧ (∃ c : CmpRow, computeComparison 7 rowsThreeMarkets .individual = some c
        ∧ c.itemid = 7 ∧ c.name = "Oak Log" ∧ c.category = "Wood"
        ∧ c.lowest_server = "A" ∧ c.lowest_price = 100
        ∧ c.highest_server = "C" ∧ c.highest_price = 150
        ∧ c.average_price = 125 ∧ c.price_difference = 50 ∧ c.server_count = 2) := by
  constructor
  · intro itemId rows hnd
    have hbp := buildPrices_eq rows .individual hnd
    constructor
    · intro hlen
      rcases rows with _ | ⟨base, tail⟩
      · rfl
      · simp only [computeComparison]
        rcases hsp : buildPrices (base :: tail) .individual with _ | ⟨p, _ | ⟨q, rest⟩⟩
        · rfl
        · rfl
        · exfalso
          rw [hbp] at hsp
          have h2 : ((base :: tail).filter (fun r => 0 < rowPrice r .individual)).length
              = rest.length + 2 := by
            have h3 := congrArg List.length hsp
            rw [List.length_map] at h3
            simpa using h3
          omega
    · intro c hc
      rcases rows with _ | ⟨base, tail⟩
      · exact Option.noConfusion hc
      · simp only [computeComparison] at hc
        rcases hsp : buildPrices (base :: tail) .individual with _ | ⟨p, _ | ⟨q, rest⟩⟩
        · rw [hsp] at hc; exact Option.noConfusion hc
        · rw [hsp] at hc; exact Option.noConfusion hc
        · rw [hsp] at hc
          have hrec := (Option.some.inj hc).symm
          subst hrec
          rw [hbp] at hsp
          have hlo := minFold_mem p (q :: rest)
          have hhi := maxFold_mem p (q :: rest)
          have hlohi : (minFold p (q :: rest)).2 ≤ (maxFold p (q :: rest)).2 :=
            minFold_le p (q :: rest) _ hhi
          refine ⟨?_, ?_, hlohi, ?_, ?_, ?_, ?_⟩
          · show (p :: q :: rest).length = _
            rw [← hsp, List.length_map]
          · show (sumVals (p :: q :: rest) : ℚ) / ((p :: q :: rest).length : ℚ) = _
            rw [← hsp, sumVals, List.map_map]
            rfl
          · dsimp only
            omega
          · intro r hr hpos
            have hmem : (r.server, rowPrice r .individual) ∈ p :: q :: rest := by
              rw [← hsp]
              exact List.mem_map.mpr ⟨r, List.mem_filter.mpr ⟨hr, by simpa using hpos⟩, rfl⟩
            exact ⟨minFold_le p (q :: rest) _ hmem, maxFold_ge p (q :: rest) _ hmem⟩
          · rw [← hsp] at hlo
            obtain ⟨r, hrf, hfr⟩ := List.mem_map.mp hlo
            obtain ⟨hrin, hrpos⟩ := List.mem_filter.mp hrf
            exact ⟨r, hrin, by simpa using hrpos,
              congrArg Prod.fst hfr, congrArg Prod.snd hfr⟩
          · rw [← hsp] at hhi
            obtain ⟨r, hrf, hfr⟩ := List.mem_map.mp hhi
            obtain ⟨hrin, hrpos⟩ := List.mem_filter.mp hrf
            exact ⟨r, hrin, by simpa using hrpos,
              congrArg Prod.fst hfr, congrArg Prod.snd hfr⟩
  · refine ⟨_, rfl, rfl, rfl, rfl, rfl, rfl, rfl, rfl, ?_, rfl, rfl⟩
    show ((sumVals [("A", 100), ("C", 150)] : ℕ) : ℚ) / ((2 : ℕ) : ℚ) = 125
    norm_num [sumVals]

/-- C10: every comparison record emitted by `_compute_comparison` (unit or
bundle) copies its name and category from the first record of the per-item
buffer — the earliest-completed market's record — even when that record's
price is 0 and therefore contributes to neither the extremes, the mean, nor
the market count; demonstrated on a bundle comparison whose first record
has bundle price 0. -/
theorem claim10_base_fields :
    (∀ (itemId : Nat) (rows : List Row) (pt : PriceType) (c : CmpRow),
        computeComparison itemId rows pt = some c →
        ∃ base tail, rows = base :: tail
          ∧ c.name = cmpName base pt
          ∧ c.category = base.item.category)
    ∧ (∃ c : CmpRow, computeComparison 9 rowsStackHeadZero .stack = some c
        ∧ c.name = "Oak Log (Stack x12)" ∧ c.category = "Wood"
        ∧ c.lowest_server = "B" ∧ c.lowest_price = 600
        ∧ c.highest_server = "C" ∧ c.highest_price = 900
        ∧ c.server_count = 2
        ∧ rowsStackHeadZero.head?.map (fun r => r.item.stack_price) = some 0) := by
  constructor
  · intro itemId rows pt c hc
    rcases rows with _ | ⟨base, tail⟩
    · exact Option.noConfusion hc
    · simp only [computeComparison] at hc
      rcases hsp : buildPrices (base :: tail) pt with _ | ⟨p, _ | ⟨q, rest⟩⟩
      · rw [hsp] at hc; exact Option.noConfusion hc
      · rw [hsp] at hc; exact Option.noConfusion hc
      · rw [hsp] at hc
        have hrec := (Option.some.inj hc).symm
        subst hrec
        exact ⟨base, tail, rfl, rfl, rfl⟩
  · exact ⟨_, rfl, rfl, rfl, rfl, rfl, rfl, rfl, rfl, rfl⟩

end MarketMiner
